import Mathlib

/-!
Verification of the conversion core of the `pdfconverter` repository
(`pdf_converter_cli.py` and the flat-mode naming of `pdf_converter.py`).

Python strings are modelled as lists of Unicode code points (`List Char`),
matching Python's sequence-of-code-points semantics for slicing, splitting
and joining.  Fallible library calls (PIL, python-docx, openpyxl,
python-pptx, reportlab, `shutil`, `os.stat`) are modelled as an environment
of `Except`-valued oracles; a Python `try/except` block is the
corresponding `match` on the `Except` value.  Numeric page coordinates are
modelled as exact rationals: every coordinate that occurs is the A4 height
minus an integer, and the only comparison made is against the integer 50,
which is never at an exact floating-point tie, so the rational model agrees
with the float computation of the source.
-/

/-- A Python `str`: a finite sequence of code points. -/
abbrev PyStr := List Char

/-- A Python exception value, reduced to its message (`str(e)`). -/
abbrev PyErr := PyStr

/-- Python `str.split(sep)` for a one-character separator: splits on every
occurrence and keeps empty pieces; the result is always non-empty. -/
def pySplit (sep : Char) : PyStr → List PyStr
  | [] => [[]]
  | c :: rest =>
    if c = sep then [] :: pySplit sep rest
    else
      match pySplit sep rest with
      | [] => [[c]]
      | h :: t => (c :: h) :: t

/-- The whitespace characters stripped by Python `str.strip()` (ASCII part;
the inputs of interest contain no exotic Unicode whitespace). -/
def pyIsSpace (c : Char) : Bool :=
  c = ' ' || c = '\t' || c = '\n' || c = '\r' || c = (Char.ofNat 11) || c = (Char.ofNat 12)

/-- Python `str.strip()`. -/
def pyStrip (s : PyStr) : PyStr :=
  ((s.dropWhile pyIsSpace).reverse.dropWhile pyIsSpace).reverse

/-- Python `str.lower()` (ASCII case folding; file extensions are ASCII). -/
def pyLower (s : PyStr) : PyStr := s.map Char.toLower

/-- Python `sep.join(pieces)`. -/
def pyJoinSep (sep : PyStr) (pieces : List PyStr) : PyStr :=
  List.intercalate sep pieces

/-- Python `str.replace(old, new)` for a one-character pattern. -/
def pyReplaceChar (old : Char) (new : PyStr) (s : PyStr) : PyStr :=
  s.flatMap (fun c => if c = old then new else [c])

/-- The digit character of `k % 10`, as produced by Python's decimal
formatting of a non-negative integer. -/
def decDigitChar (k : Nat) : Char :=
  if k % 10 = 0 then '0' else if k % 10 = 1 then '1' else if k % 10 = 2 then '2'
  else if k % 10 = 3 then '3' else if k % 10 = 4 then '4' else if k % 10 = 5 then '5'
  else if k % 10 = 6 then '6' else if k % 10 = 7 then '7' else if k % 10 = 8 then '8'
  else '9'

/-- Fuel-based decimal rendering; the fuel only bounds the recursion depth
and `natToDecimal` always supplies enough of it. -/
def natToDecimalAux : Nat → Nat → PyStr
  | 0, _ => []
  | fuel + 1, n =>
    if n < 10 then [decDigitChar n]
    else natToDecimalAux fuel (n / 10) ++ [decDigitChar (n % 10)]

/-- Python `str(n)` / `f-string` rendering of a non-negative integer in
decimal. -/
def natToDecimal (n : Nat) : PyStr := natToDecimalAux (n + 1) n

/-- Numeric value of a decimal digit character. -/
def decDigitVal (c : Char) : Nat :=
  if c = '0' then 0 else if c = '1' then 1 else if c = '2' then 2
  else if c = '3' then 3 else if c = '4' then 4 else if c = '5' then 5
  else if c = '6' then 6 else if c = '7' then 7 else if c = '8' then 8
  else 9

/-- Decimal parsing, the left inverse used to prove `natToDecimal`
injective. -/
def decParse (s : PyStr) : Nat :=
  s.foldl (fun a c => a * 10 + decDigitVal c) 0

theorem decDigitVal_decDigitChar (k : Nat) : decDigitVal (decDigitChar k) = k % 10 := by
  have h : k % 10 < 10 := Nat.mod_lt _ (by omega)
  unfold decDigitChar decDigitVal
  interval_cases h : k % 10 <;> simp_all

theorem decParse_aux (s : PyStr) (a : Nat) :
    s.foldl (fun a c => a * 10 + decDigitVal c) a =
      a * 10 ^ s.length + s.foldl (fun a c => a * 10 + decDigitVal c) 0 := by
  induction s generalizing a with
  | nil => simp
  | cons c rest ih =>
    simp only [List.foldl_cons, List.length_cons]
    rw [ih (a * 10 + decDigitVal c), ih (0 * 10 + decDigitVal c)]
    ring

theorem decParse_natToDecimalAux (fuel n : Nat) (h : n < fuel) :
    decParse (natToDecimalAux fuel n) = n := by
  induction fuel generalizing n with
  | zero => omega
  | succ f ih =>
    by_cases h10 : n < 10
    · simp only [natToDecimalAux, h10, if_true, decParse, List.foldl_cons, List.foldl_nil]
      rw [decDigitVal_decDigitChar]
      omega
    · simp only [natToDecimalAux, h10, if_false,
        decParse, List.foldl_append, List.foldl_cons, List.foldl_nil]
      have hd : n / 10 < n := Nat.div_lt_self (by omega) (by omega)
      have ihd := ih (n / 10) (by omega)
      unfold decParse at ihd
      rw [ihd, decDigitVal_decDigitChar]
      omega

theorem decParse_natToDecimal (n : Nat) : decParse (natToDecimal n) = n :=
  decParse_natToDecimalAux (n + 1) n (by omega)

theorem natToDecimal_injective : Function.Injective natToDecimal := by
  intro a b h
  have := decParse_natToDecimal a
  rw [h, decParse_natToDecimal] at this
  omega

/-- The final path component (what `pathlib.PurePath.name` returns for the
paths in play, and what `os.path.basename` returns). -/
def pyBasename (p : PyStr) : PyStr :=
  (pySplit '/' p).getLastD []

/-- Index of the last occurrence of `c` in `s` (Python `str.rfind`,
returning `none` instead of `-1`). -/
def pyRFindIdx (c : Char) (s : PyStr) : Option Nat :=
  (s.enum.filter (fun p => p.2 = c)).getLast? |>.map (·.1)

/-- `pathlib.PurePath.suffix`: the extension of the final component,
including the dot; empty when the name has no dot, starts with its only
dot, or ends with a dot (CPython's `0 < i < len(name) - 1` rule). -/
def pathSuffix (p : PyStr) : PyStr :=
  let name := pyBasename p
  match pyRFindIdx '.' name with
  | none => []
  | some i => if 0 < i ∧ i < name.length - 1 then name.drop i else []

/-- `pathlib.PurePath.stem`: the final component without its suffix. -/
def pathStem (p : PyStr) : PyStr :=
  let name := pyBasename p
  match pyRFindIdx '.' name with
  | none => name
  | some i => if 0 < i ∧ i < name.length - 1 then name.take i else name

/-- The file-type categories of `PDFConverter.supported_formats`. -/
inductive Category where
  | images
  | documents
  | spreadsheets
  | presentations
  | pdf
deriving DecidableEq, Repr

/-- `PDFConverter.supported_formats`: the fixed category-to-extension-set
mapping, in its Python dict insertion order. -/
def supported_formats : List (Category × List PyStr) :=
  [ (Category.images,
      [(".jpg").toList, (".jpeg").toList, (".png").toList, (".gif").toList,
       (".bmp").toList, (".tiff").toList, (".webp").toList]),
    (Category.documents, [(".docx").toList, (".txt").toList, (".md").toList]),
    (Category.spreadsheets, [(".xlsx").toList, (".xls").toList]),
    (Category.presentations, [(".pptx").toList]),
    (Category.pdf, [(".pdf").toList]) ]

/-- The extension set of one category (the entry of `supported_formats`
for that category, flattened into a direct match). -/
def extensionsOf (cat : Category) : List PyStr :=
  match cat with
  | Category.images =>
      [(".jpg").toList, (".jpeg").toList, (".png").toList, (".gif").toList,
       (".bmp").toList, (".tiff").toList, (".webp").toList]
  | Category.documents => [(".docx").toList, (".txt").toList, (".md").toList]
  | Category.spreadsheets => [(".xlsx").toList, (".xls").toList]
  | Category.presentations => [(".pptx").toList]
  | Category.pdf => [(".pdf").toList]

/-- `PDFConverter.get_file_type`: the category whose extension list
contains the path's lowercased suffix, scanning categories in dict order;
`none` for unsupported extensions. -/
def get_file_type (p : PyStr) : Option Category :=
  let ext := pyLower (pathSuffix p)
  (supported_formats.find? (fun q => q.2.contains ext)).map (·.1)


/-- A raw `reportlab.pdfgen.canvas` operation as issued by the xlsx and
pptx converters: a `drawString` at exact coordinates, or a `showPage`. -/
inductive DrawOp where
  | text (x y : ℚ) (s : PyStr)
  | newPage
deriving DecidableEq, Repr

/-- The paragraph styles taken from `getSampleStyleSheet` that the tool
uses (the mutated font sizes do not affect any claim). -/
inductive Style where
  | title
  | heading2
  | normal
deriving DecidableEq, Repr

/-- A `reportlab.platypus` flowable as appended to a `story`. -/
inductive StoryEl where
  | para (st : Style) (text : PyStr)
  | spacer (w h : ℚ)
  | pageBreak
  | image (w h : ℚ)
deriving DecidableEq, Repr

/-- The state of a PIL image that the image converter manipulates: only its
color mode matters to the source. -/
structure ImgFile where
  mode : PyStr
deriving DecidableEq, Repr

/-- One worksheet: its name and its stored cell grid (row-major, `none` for
absent cells; values pre-stringified, since the source immediately applies
`str` to every non-`None` value). -/
structure Sheet where
  name : PyStr
  grid : List (List (Option PyStr))
deriving DecidableEq, Repr

/-- An openpyxl workbook: its sheets in `workbook.sheetnames` order. -/
structure Workbook where
  sheets : List Sheet
deriving DecidableEq, Repr

/-- One pptx slide: the `text` of each shape in `slide.shapes` order
(shapes without a `text` attribute are represented by the empty string,
which the source's truthiness test skips identically). -/
abbrev Slide := List PyStr

/-- The oracle for every fallible library call the converters make.  Each
field returns `Except`: `.error` is the call raising, `.ok` its result. -/
structure PyEnv where
  imageOpen : PyStr → Except PyErr ImgFile
  imageSave : PyStr → ImgFile → Except PyErr Unit
  docxOpen : PyStr → Except PyErr (List PyStr)
  readFile : PyStr → Except PyErr PyStr
  markdownToHtml : PyStr → PyStr
  loadWorkbook : PyStr → Except PyErr Workbook
  pptxOpen : PyStr → Except PyErr (List Slide)
  buildDoc : PyStr → List StoryEl → Except PyErr Unit
  canvasSave : PyStr → List DrawOp → Except PyErr Unit
  copy2 : PyStr → PyStr → Except PyErr Unit
  relTo : PyStr → Except PyErr PyStr
  statSize : PyStr → Except PyErr Nat
  imageThumb : PyStr → Except PyErr (ℚ × ℚ)

/-- A Python `try: return <body> except: return False` boundary: an
escaping exception becomes a plain `False`, and nothing escapes. -/
def tryBool (x : Except PyErr Bool) : Except PyErr Bool :=
  match x with
  | Except.ok b => Except.ok b
  | Except.error _ => Except.ok false

/-- `A4` page height in points, `297 * mm` with `mm = 72 / 25.4`, kept as
an exact rational (every coordinate in play is this height minus a small
integer, and the float computation of the source never lands on an exact
comparison tie, so the rational model decides every `< 50` test the same
way). -/
def A4height : ℚ := 297 * 72 * 10 / 254

/-- `convert_image_to_pdf`: open, normalize mode to RGB, save as PDF. -/
def convert_image_to_pdf (env : PyEnv) (input output : PyStr) : Except PyErr Bool :=
  tryBool (do
    let img ← env.imageOpen input
    let img2 := if img.mode ≠ ("RGB").toList then { img with mode := ("RGB").toList } else img
    let _ ← env.imageSave output img2
    pure true)

/-- Outcome of the document-style converters before any I/O: either a
normally built story, or the canvas fallback with its raw draw ops. -/
inductive RenderOut where
  | built (story : List StoryEl)
  | fallback (ops : List DrawOp)
deriving DecidableEq, Repr

/-- Whether a `RenderOut` is the canvas fallback branch. -/
def RenderOut.isFallback : RenderOut → Bool
  | RenderOut.built _ => false
  | RenderOut.fallback _ => true

/-- The story built by `convert_txt_to_pdf`: one flowable per line of the
file, a paragraph for a line with non-whitespace content and a
`Spacer(1, 12)` otherwise. -/
def txtStory (content : PyStr) : List StoryEl :=
  (pySplit '\n' content).map
    (fun line => if pyStrip line ≠ [] then StoryEl.para Style.normal line else StoryEl.spacer 1 12)

/-- The branch decision of `convert_txt_to_pdf` after reading `content`:
build the story when it is non-empty, otherwise emit the one-line canvas
fallback (which states only the source filename). -/
def convert_txt_render (input content : PyStr) : RenderOut :=
  let story := txtStory content
  if story ≠ [] then RenderOut.built story
  else RenderOut.fallback
    [DrawOp.text 100 750 (("Converted from: ").toList ++ pyBasename input)]

/-- `convert_txt_to_pdf`. -/
def convert_txt_to_pdf (env : PyEnv) (input output : PyStr) : Except PyErr Bool :=
  tryBool (do
    let content ← env.readFile input
    match convert_txt_render input content with
    | RenderOut.built story => do
        let _ ← env.buildDoc output story
        pure true
    | RenderOut.fallback ops => do
        let _ ← env.canvasSave output ops
        pure true)

/-- The story built by `convert_docx_to_pdf`: a paragraph plus a
`Spacer(1, 12)` for each paragraph with non-whitespace text, nothing for
the others. -/
def docxStory (paras : List PyStr) : List StoryEl :=
  paras.flatMap
    (fun p => if pyStrip p ≠ [] then [StoryEl.para Style.normal p, StoryEl.spacer 1 12] else [])

/-- The branch decision of `convert_docx_to_pdf`: build when some
paragraph had text, otherwise the two-line canvas fallback. -/
def convert_docx_render (input : PyStr) (paras : List PyStr) : RenderOut :=
  let story := docxStory paras
  if story ≠ [] then RenderOut.built story
  else RenderOut.fallback
    [DrawOp.text 100 750 (("Converted from: ").toList ++ pyBasename input),
     DrawOp.text 100 730 ("No readable content found").toList]

/-- `convert_docx_to_pdf`. -/
def convert_docx_to_pdf (env : PyEnv) (input output : PyStr) : Except PyErr Bool :=
  tryBool (do
    let paras ← env.docxOpen input
    match convert_docx_render input paras with
    | RenderOut.built story => do
        let _ ← env.buildDoc output story
        pure true
    | RenderOut.fallback ops => do
        let _ ← env.canvasSave output ops
        pure true)

/-- `convert_md_to_pdf`: read, render markdown to HTML, embed the HTML
string as one paragraph. -/
def convert_md_to_pdf (env : PyEnv) (input output : PyStr) : Except PyErr Bool :=
  tryBool (do
    let mdContent ← env.readFile input
    let html := env.markdownToHtml mdContent
    let _ ← env.buildDoc output [StoryEl.para Style.normal html]
    pure true)

/-- `str(cell) if cell is not None else ""` applied to one cell value. -/
def cellStr : Option PyStr → PyStr
  | some s => s
  | none => []

/-- The pipe-joined row text of one spreadsheet row. -/
def rowText (row : List (Option PyStr)) : PyStr :=
  pyJoinSep (" | ").toList (row.map cellStr)

/-- The stored value of cell `(r, c)` of a sheet, `none` when absent. -/
def cellAt (s : Sheet) (r c : Nat) : Option PyStr :=
  ((s.grid.get? r).bind (fun row => row.get? c)).join

/-- `sheet.iter_rows(max_row=50, max_col=10, values_only=True)`: openpyxl
iterates the full requested rectangle, materialising absent cells as
`None`, so every sheet yields exactly 50 rows of exactly 10 values. -/
def iterRows50x10 (s : Sheet) : List (List (Option PyStr)) :=
  (List.range 50).map (fun r => (List.range 10).map (fun c => cellAt s r c))

/-- The inner row loop of `convert_xlsx_to_pdf`: page-break check before
each row, then draw the stripped-nonempty row text truncated to 80
characters and move the cursor down 15 points.  Returns the final cursor
and the issued draw ops. -/
def xlsxRowOps : ℚ → List (List (Option PyStr)) → ℚ × List DrawOp
  | y, [] => (y, [])
  | y, row :: rest =>
    let brk := if y < 50 then (A4height - 50, [DrawOp.newPage]) else (y, ([] : List DrawOp))
    let txt := rowText row
    let drawn :=
      if pyStrip txt ≠ [] then (brk.1 - 15, [DrawOp.text 50 brk.1 (txt.take 80)])
      else (brk.1, ([] : List DrawOp))
    let rest2 := xlsxRowOps drawn.1 rest
    (rest2.1, brk.2 ++ drawn.2 ++ rest2.2)

/-- One sheet of the `convert_xlsx_to_pdf` loop: the `Sheet: <name>`
header, a 20-point drop, the row loop, and the 20-point drop after the
rows. -/
def xlsxSheetOps (y : ℚ) (s : Sheet) : ℚ × List DrawOp :=
  let rows := xlsxRowOps (y - 20) (iterRows50x10 s)
  (rows.1 - 20, DrawOp.text 50 y (("Sheet: ").toList ++ s.name) :: rows.2)

/-- The sheet loop of `convert_xlsx_to_pdf`, threading the cursor. -/
def xlsxSheetsFold : ℚ → List Sheet → ℚ × List DrawOp
  | y, [] => (y, [])
  | y, s :: rest =>
    let first := xlsxSheetOps y s
    let rest2 := xlsxSheetsFold first.1 rest
    (rest2.1, first.2 ++ rest2.2)

/-- All canvas operations issued by `convert_xlsx_to_pdf` for a workbook:
the `Excel File:` banner at `height - 50`, a 30-point drop, then the
sheets. -/
def xlsxDrawOps (wb : Workbook) (inputName : PyStr) : List DrawOp :=
  DrawOp.text 50 (A4height - 50) (("Excel File: ").toList ++ inputName)
    :: (xlsxSheetsFold (A4height - 50 - 30) wb.sheets).2

/-- `convert_xlsx_to_pdf`. -/
def convert_xlsx_to_pdf (env : PyEnv) (input output : PyStr) : Except PyErr Bool :=
  tryBool (do
    let wb ← env.loadWorkbook input
    let _ ← env.canvasSave output (xlsxDrawOps wb (pyBasename input))
    pure true)

/-- The inner line loop of `convert_pptx_to_pdf`: page-break check before
each line, draw it truncated to 80 characters, drop 20 points. -/
def pptxLineOps : ℚ → List PyStr → ℚ × List DrawOp
  | y, [] => (y, [])
  | y, line :: rest =>
    let brk := if y < 50 then (A4height - 50, [DrawOp.newPage]) else (y, ([] : List DrawOp))
    let rest2 := pptxLineOps (brk.1 - 20) rest
    (rest2.1, brk.2 ++ [DrawOp.text 50 brk.1 (line.take 80)] ++ rest2.2)

/-- The shape loop of one slide: shapes with empty text are skipped, the
others contribute their lines. -/
def pptxShapeFold : ℚ → List PyStr → ℚ × List DrawOp
  | y, [] => (y, [])
  | y, sh :: rest =>
    let first :=
      if sh ≠ [] then pptxLineOps y (pySplit '\n' sh) else (y, ([] : List DrawOp))
    let rest2 := pptxShapeFold first.1 rest
    (rest2.1, first.2 ++ rest2.2)

/-- The slide loop of `convert_pptx_to_pdf`, numbering slides from 1: each
slide starts on a fresh page with a `Slide <n>` header and its shape text
starting at `height - 80`. -/
def pptxSlidesFold : Nat → List Slide → List DrawOp
  | _, [] => []
  | n, sl :: rest =>
    DrawOp.newPage
      :: DrawOp.text 50 (A4height - 50) (("Slide ").toList ++ natToDecimal n)
      :: (pptxShapeFold (A4height - 80) sl).2
      ++ pptxSlidesFold (n + 1) rest

/-- All canvas operations issued by `convert_pptx_to_pdf`: the cover
banner, then the slides. -/
def pptxDrawOps (slides : List Slide) (inputName : PyStr) : List DrawOp :=
  DrawOp.text 50 (A4height - 50) (("PowerPoint: ").toList ++ inputName)
    :: pptxSlidesFold 1 slides

/-- `convert_pptx_to_pdf`. -/
def convert_pptx_to_pdf (env : PyEnv) (input output : PyStr) : Except PyErr Bool :=
  tryBool (do
    let slides ← env.pptxOpen input
    let _ ← env.canvasSave output (pptxDrawOps slides (pyBasename input))
    pure true)

/-- The body of `PDFConverter.convert_file` inside its `try` block: the
category dispatch.  The `shutil.copy2` of the `pdf` branch is the one call
here that can raise; the early `return False` for an unsupported type
happens before the `try` and cannot raise either. -/
def convert_file_body (env : PyEnv) (input output : PyStr) : Except PyErr Bool :=
  match get_file_type input with
  | none => Except.ok false
  | some Category.images => convert_image_to_pdf env input output
  | some Category.documents =>
    let ext := pyLower (pathSuffix input)
    if ext = (".docx").toList then convert_docx_to_pdf env input output
    else if ext = (".txt").toList then convert_txt_to_pdf env input output
    else if ext = (".md").toList then convert_md_to_pdf env input output
    else Except.ok false
  | some Category.spreadsheets => convert_xlsx_to_pdf env input output
  | some Category.presentations => convert_pptx_to_pdf env input output
  | some Category.pdf =>
    tryBool (do
      let _ ← env.copy2 input output
      pure true)

/-- `PDFConverter.convert_file`: the dispatch wrapped in the outer
`try/except` that reports any escaping failure as `False`. -/
def convert_file (env : PyEnv) (input output : PyStr) : Except PyErr Bool :=
  tryBool (convert_file_body env input output)

/-- `generate_unique_filename`'s `while` loop, with explicit fuel: try
`<base>_<counter><ext>` against the directory listing, incrementing the
counter while the name exists.  `generate_unique_filename` supplies fuel
that the loop can never exhaust. -/
def genUniqueAux (fs : List PyStr) (base ext : PyStr) : Nat → Nat → PyStr
  | 0, c => base ++ ('_' :: natToDecimal c) ++ ext
  | fuel + 1, c =>
    let cand := base ++ ('_' :: natToDecimal c) ++ ext
    if cand ∈ fs then genUniqueAux fs base ext fuel (c + 1) else cand

/-- The candidate name tried at counter `c`. -/
def candName (base ext : PyStr) (c : Nat) : PyStr :=
  base ++ ('_' :: natToDecimal c) ++ ext

/-- `generate_unique_filename`: the first of `<base><ext>`,
`<base>_1<ext>`, `<base>_2<ext>`, ... that does not exist in the output
directory, where `fs` is the set of names currently existing on disk. -/
def generate_unique_filename (fs : List PyStr) (base ext : PyStr) : PyStr :=
  let first := base ++ ext
  if first ∈ fs then genUniqueAux fs base ext (fs.length + 1) 1 else first


/-- The HTML escaping applied to each document line in combine mode:
`replace('&', '&amp;').replace('<', '&lt;').replace('>', '&gt;')`,
in that sequence. -/
def escapeHtml (line : PyStr) : PyStr :=
  pyReplaceChar '>' ("&gt;").toList
    (pyReplaceChar '<' ("&lt;").toList
      (pyReplaceChar '&' ("&amp;").toList line))

/-- The `"─" * 50` separator line drawn after every combine entry. -/
def sepChars : PyStr := List.replicate 50 '─'

/-- The inline error note of the combiner's per-file `except` handler. -/
def errProcText (f : PyStr) (e : PyErr) : PyStr :=
  ("<i>Error processing ").toList ++ pyBasename f ++ (": ").toList ++ e ++ ("</i>").toList

/-- The document text fetched by the combiner's documents branch, per
extension: raw file content for `.txt` and `.md`, newline-joined paragraph
texts for `.docx`, and a stock description otherwise. -/
def combineDocContent (env : PyEnv) (f : PyStr) : Except PyErr PyStr :=
  if pyLower (pathSuffix f) = (".txt").toList then env.readFile f
  else if pyLower (pathSuffix f) = (".md").toList then env.readFile f
  else if pyLower (pathSuffix f) = (".docx").toList then
    (env.docxOpen f).map (fun paras => pyJoinSep [Char.ofNat 10] paras)
  else Except.ok (("Document file: ").toList ++ pyBasename f)

/-- The category-specific middle part of one combine entry, together with
the exception (if any) that escapes to the per-file handler after the
already-appended flowables.  Only `file_path.stat()` can raise here: the
image embed and the document read sit inside their own inner `try`. -/
def combineFileMid (env : PyEnv) (f : PyStr) : List StoryEl × Option PyErr :=
  match get_file_type f with
  | some Category.images =>
    let l1 := [StoryEl.para Style.normal
      (("<i>Image file: ").toList ++ pyBasename f ++ ("</i>").toList)]
    match env.statSize f with
    | Except.error e => (l1, some e)
    | Except.ok sz =>
      let l2 := l1 ++ [StoryEl.para Style.normal
        (("<i>Size: ").toList ++ natToDecimal sz ++ (" bytes</i>").toList)]
      match env.imageThumb f with
      | Except.ok wh => (l2 ++ [StoryEl.image wh.1 wh.2, StoryEl.spacer 1 12], none)
      | Except.error e =>
        (l2 ++ [StoryEl.para Style.normal
          (("<i>Could not embed image: ").toList ++ e ++ ("</i>").toList)], none)
  | some Category.documents =>
    match combineDocContent env f with
    | Except.error e =>
      ([StoryEl.para Style.normal
        (("<i>Could not read document: ").toList ++ e ++ ("</i>").toList)], none)
    | Except.ok content =>
      ((pySplit '\n' content).map
        (fun line =>
          if pyStrip line ≠ [] then StoryEl.para Style.normal (escapeHtml line)
          else StoryEl.spacer 1 6), none)
  | some Category.spreadsheets =>
    let l1 := [StoryEl.para Style.normal
      (("<i>Spreadsheet file: ").toList ++ pyBasename f ++ ("</i>").toList)]
    match env.statSize f with
    | Except.error e => (l1, some e)
    | Except.ok sz =>
      (l1 ++ [StoryEl.para Style.normal
          (("<i>Size: ").toList ++ natToDecimal sz ++ (" bytes</i>").toList),
        StoryEl.para Style.normal
          ("<i>Note: Spreadsheet content not fully displayed in combined PDF</i>").toList], none)
  | some Category.presentations =>
    let l1 := [StoryEl.para Style.normal
      (("<i>Presentation file: ").toList ++ pyBasename f ++ ("</i>").toList)]
    match env.statSize f with
    | Except.error e => (l1, some e)
    | Except.ok sz =>
      (l1 ++ [StoryEl.para Style.normal
          (("<i>Size: ").toList ++ natToDecimal sz ++ (" bytes</i>").toList),
        StoryEl.para Style.normal
          ("<i>Note: Presentation content not fully displayed in combined PDF</i>").toList], none)
  | some Category.pdf =>
    let l1 := [StoryEl.para Style.normal
      (("<i>Existing PDF file: ").toList ++ pyBasename f ++ ("</i>").toList)]
    match env.statSize f with
    | Except.error e => (l1, some e)
    | Except.ok sz =>
      (l1 ++ [StoryEl.para Style.normal
          (("<i>Size: ").toList ++ natToDecimal sz ++ (" bytes</i>").toList),
        StoryEl.para Style.normal
          ("<i>Note: PDF content not embedded in combined PDF</i>").toList], none)
  | none => ([], none)

/-- The `try` body of one combine entry, for the file at 1-based position
`i` of `n`: the flowables appended before any escaping exception, and that
exception if one escapes.  `relative_to` raises before anything is
appended; afterwards come the title, the category body, the separator
block, and the page break after every 5th entry except the last. -/
def combineFileBody (env : PyEnv) (i n : Nat) (f : PyStr) : List StoryEl × Option PyErr :=
  match env.relTo f with
  | Except.error e => ([], some e)
  | Except.ok rel =>
    match combineFileMid env f with
    | (mids, some e) =>
      ([StoryEl.para Style.title (("📄 ").toList ++ rel), StoryEl.spacer 1 6] ++ mids, some e)
    | (mids, none) =>
      ([StoryEl.para Style.title (("📄 ").toList ++ rel), StoryEl.spacer 1 6] ++ mids
        ++ [StoryEl.spacer 1 12, StoryEl.para Style.normal sepChars, StoryEl.spacer 1 12]
        ++ (if i % 5 = 0 ∧ i < n then [StoryEl.pageBreak] else []), none)

/-- One combine entry after the per-file `except` handler: an escaping
exception appends the inline error note and a spacer after whatever was
already in the story. -/
def combineFileSection (env : PyEnv) (i n : Nat) (f : PyStr) : List StoryEl :=
  match combineFileBody env i n f with
  | (ops, some e) => ops ++ [StoryEl.para Style.normal (errProcText f e), StoryEl.spacer 1 12]
  | (ops, none) => ops

/-- The full story assembled by `combine_files_to_single_pdf` over
`enumerate(files, 1)`. -/
def combineStory (env : PyEnv) (files : List PyStr) : List StoryEl :=
  (List.enumFrom 1 files).flatMap
    (fun p => combineFileSection env p.1 files.length p.2)

/-- `combine_files_to_single_pdf`: build the story (all per-file failures
handled inline), then build the output document; only a failure of that
final build makes the whole combine report `False`. -/
def combine_files_to_single_pdf (env : PyEnv) (files : List PyStr) (output : PyStr) : Bool :=
  match env.buildDoc output (combineStory env files) with
  | Except.ok _ => true
  | Except.error _ => false

/-- A directory tree as `os.walk` sees it: the files of this directory (in
listing order) and the named subdirectories. -/
inductive FsTree where
  | node (files : List PyStr) (subs : List (PyStr × FsTree))

/-- A path relative to the walked source root, as its components. -/
abbrev RelPath := List PyStr

mutual
/-- `os.walk(directory)` in top-down order: the files of the current
directory first, then each subdirectory recursively, every file tagged
with its path relative to the root. -/
def walkFiles : FsTree → List RelPath
  | FsTree.node fs subs => fs.map (fun f => [f]) ++ walkSubsFiles subs

/-- The subdirectory part of `walkFiles`. -/
def walkSubsFiles : List (PyStr × FsTree) → List RelPath
  | [] => []
  | (d, t) :: rest => (walkFiles t).map (fun p => d :: p) ++ walkSubsFiles rest
end

/-- The string form of a relative path (`str(relative_path)`). -/
def pathStr (p : RelPath) : PyStr :=
  pyJoinSep ("/").toList p

/-- `str(relative_path.parent)` with both separator replacements applied,
as the flatten policy computes it. -/
def parentPrefixName (p : RelPath) : PyStr :=
  pyReplaceChar '\\' ("_").toList
    (pyReplaceChar '/' ("_").toList (pathStr p.dropLast))

/-- The flat-mode base name of a file: its stem, prefixed with the
underscore-joined parent directory path when it lives in a
subdirectory. -/
def flatBaseName (p : RelPath) : PyStr :=
  let base := pathStem (pathStr p)
  if p.dropLast ≠ [] then parentPrefixName p ++ ('_' :: base) else base

/-- The mirror-mode output path of a file, relative to the output root:
same subdirectory, extension replaced by `.pdf`. -/
def mirrorOutputPath (p : RelPath) : PyStr :=
  pathStr (p.dropLast ++ [pathStem (pathStr p) ++ (".pdf").toList])

/-- The per-run environment of `convert_directory`: the source-path
checks, the walked tree, the names already existing in the output
directory, the per-file conversion outcome (a use of `convert_file`,
abstracted to its boolean result), and the combine outcome. -/
structure WalkEnv where
  dirExists : Bool
  isDir : Bool
  tree : FsTree
  initialFs : List PyStr
  convertOk : PyStr → PyStr → Bool
  combineOk : Bool

/-- The supported files of the batch, in walk order: exactly those the
classifier accepts (`if converter.get_file_type(file_path)`). -/
def walkSupported (env : WalkEnv) : List RelPath :=
  (walkFiles env.tree).filter (fun f => (get_file_type (pathStr f)).isSome)

/-- The accumulating state of the per-file conversion loop. -/
structure FoldSt where
  fs : List PyStr
  nS : Nat
  nF : Nat
  assigned : List PyStr
  written : List PyStr
deriving DecidableEq

/-- One iteration of the conversion loop of `convert_directory`: compute
the destination (mirror path, or flatten name resolved against the names
currently on disk), convert, and update counters and the disk state (a
successful conversion writes its output file). -/
def convertStep (env : WalkEnv) (maintain : Bool) (st : FoldSt) (f : RelPath) : FoldSt :=
  let out :=
    if maintain then mirrorOutputPath f
    else generate_unique_filename st.fs (flatBaseName f) (".pdf").toList
  let ok := env.convertOk (pathStr f) out
  { fs := if ok then out :: st.fs else st.fs
    nS := st.nS + (if ok then 1 else 0)
    nF := st.nF + (if ok then 0 else 1)
    assigned := st.assigned ++ [out]
    written := st.written ++ (if ok then [out] else []) }

/-- The outcome of one `convert_directory` run. -/
structure RunResult where
  success : Bool
  nSuccess : Nat
  nFail : Nat
  assigned : List PyStr
  written : List PyStr
deriving DecidableEq

/-- `convert_directory`: source-path checks, enumeration filtered by the
classifier, then either the combine branch or the per-file loop; the
returned flag is `True` exactly on a successful combine or on at least one
successful per-file conversion. -/
def convert_directory (env : WalkEnv) (maintain_structure combine : Bool) : RunResult :=
  if env.dirExists = false then RunResult.mk false 0 0 [] []
  else if env.isDir = false then RunResult.mk false 0 0 [] []
  else
    let allFiles := walkSupported env
    if allFiles.isEmpty then RunResult.mk false 0 0 [] []
    else if combine then RunResult.mk env.combineOk 0 0 [] []
    else
      let st := allFiles.foldl (convertStep env maintain_structure)
        (FoldSt.mk env.initialFs 0 0 [] [])
      RunResult.mk (decide (0 < st.nS)) st.nS st.nF st.assigned st.written

/-- How one `main()` invocation ends: the conversion ran to completion
with the given flag, the user interrupted, or an unexpected exception
escaped. -/
inductive MainOutcome where
  | completed (ok : Bool)
  | interrupted
  | crashed
deriving DecidableEq

/-- The process exit code chosen by `main()`. -/
def mainExitCode : MainOutcome → Nat
  | MainOutcome.completed ok => if ok then 0 else 1
  | MainOutcome.interrupted => 1
  | MainOutcome.crashed => 1

/-- The GUI variant's flat-mode destination name
(`pdf_output_dir / f"{base_name}.pdf"`): the same prefixed base name as
the CLI, but written directly with no existence check. -/
def gui_flat_output_name (p : RelPath) : PyStr :=
  flatBaseName p ++ (".pdf").toList

/-- The destinations the GUI's flat mode assigns to a batch, in order. -/
def gui_flat_names (files : List RelPath) : List PyStr :=
  files.map gui_flat_output_name

theorem tryBool_is_ok (x : Except PyErr Bool) : ∃ b, tryBool x = Except.ok b := by
  cases x with
  | ok b => exact ⟨b, rfl⟩
  | error e => exact ⟨false, rfl⟩

/-- C1: `PDFConverter.convert_file` returns a boolean for every input and
output path and never lets an exception escape: each per-format converter
already catches internally, the dispatch catches the `shutil.copy2` of the
`pdf` branch, and a failure of the primary library call of any supported
category is reported as `False`. -/
theorem c1_convert_file_no_escape (env : PyEnv) (input output : PyStr) :
    (∃ b, convert_file env input output = Except.ok b)
    ∧ (∃ b, convert_image_to_pdf env input output = Except.ok b)
    ∧ (∃ b, convert_docx_to_pdf env input output = Except.ok b)
    ∧ (∃ b, convert_txt_to_pdf env input output = Except.ok b)
    ∧ (∃ b, convert_md_to_pdf env input output = Except.ok b)
    ∧ (∃ b, convert_xlsx_to_pdf env input output = Except.ok b)
    ∧ (∃ b, convert_pptx_to_pdf env input output = Except.ok b)
    ∧ (∀ e, get_file_type input = some Category.images →
        env.imageOpen input = Except.error e →
        convert_file env input output = Except.ok false)
    ∧ (∀ e, pyLower (pathSuffix input) = (".txt").toList →
        env.readFile input = Except.error e →
        convert_file env input output = Except.ok false)
    ∧ (∀ e, pyLower (pathSuffix input) = (".docx").toList →
        env.docxOpen input = Except.error e →
        convert_file env input output = Except.ok false)
    ∧ (∀ e, pyLower (pathSuffix input) = (".md").toList →
        env.readFile input = Except.error e →
        convert_file env input output = Except.ok false)
    ∧ (∀ e, get_file_type input = some Category.spreadsheets →
        env.loadWorkbook input = Except.error e →
        convert_file env input output = Except.ok false)
    ∧ (∀ e, get_file_type input = some Category.presentations →
        env.pptxOpen input = Except.error e →
        convert_file env input output = Except.ok false)
    ∧ (∀ e, get_file_type input = some Category.pdf →
        env.copy2 input output = Except.error e →
        convert_file env input output = Except.ok false) := by
  refine ⟨tryBool_is_ok _, tryBool_is_ok _, tryBool_is_ok _, tryBool_is_ok _,
    tryBool_is_ok _, tryBool_is_ok _, tryBool_is_ok _, ?_, ?_, ?_, ?_, ?_, ?_, ?_⟩
  · intro e h he
    unfold convert_file convert_file_body convert_image_to_pdf
    rw [h, he]
    rfl
  · intro e h he
    have hgt : get_file_type input = some Category.documents := by
      unfold get_file_type
      rw [h]
      rfl
    unfold convert_file convert_file_body convert_txt_to_pdf
    rw [hgt, h, he]
    rfl
  · intro e h he
    have hgt : get_file_type input = some Category.documents := by
      unfold get_file_type
      rw [h]
      rfl
    unfold convert_file convert_file_body convert_docx_to_pdf
    rw [hgt, h, he]
    rfl
  · intro e h he
    have hgt : get_file_type input = some Category.documents := by
      unfold get_file_type
      rw [h]
      rfl
    unfold convert_file convert_file_body convert_md_to_pdf
    rw [hgt, h, he]
    rfl
  · intro e h he
    unfold convert_file convert_file_body convert_xlsx_to_pdf
    rw [h, he]
    rfl
  · intro e h he
    unfold convert_file convert_file_body convert_pptx_to_pdf
    rw [h, he]
    rfl
  · intro e h he
    unfold convert_file convert_file_body
    rw [h, he]
    rfl

/-- An environment in which every fallible library call raises. -/
def envAllErr : PyEnv where
  imageOpen := fun _ => Except.error ("boom").toList
  imageSave := fun _ _ => Except.error ("boom").toList
  docxOpen := fun _ => Except.error ("boom").toList
  readFile := fun _ => Except.error ("boom").toList
  markdownToHtml := fun s => s
  loadWorkbook := fun _ => Except.error ("boom").toList
  pptxOpen := fun _ => Except.error ("boom").toList
  buildDoc := fun _ _ => Except.error ("boom").toList
  canvasSave := fun _ _ => Except.error ("boom").toList
  copy2 := fun _ _ => Except.error ("boom").toList
  relTo := fun _ => Except.error ("boom").toList
  statSize := fun _ => Except.error ("boom").toList
  imageThumb := fun _ => Except.error ("boom").toList

theorem c1_convert_file_no_escape_witness :
    convert_file envAllErr ("a.png").toList ("o.pdf").toList = Except.ok false
    ∧ convert_file envAllErr ("a.txt").toList ("o.pdf").toList = Except.ok false
    ∧ convert_file envAllErr ("a.docx").toList ("o.pdf").toList = Except.ok false
    ∧ convert_file envAllErr ("a.md").toList ("o.pdf").toList = Except.ok false
    ∧ convert_file envAllErr ("a.xlsx").toList ("o.pdf").toList = Except.ok false
    ∧ convert_file envAllErr ("a.pptx").toList ("o.pdf").toList = Except.ok false
    ∧ convert_file envAllErr ("a.pdf").toList ("o.pdf").toList = Except.ok false := by
  refine ⟨?_, ?_, ?_, ?_, ?_, ?_, ?_⟩
  · exact (c1_convert_file_no_escape envAllErr ("a.png").toList ("o.pdf").toList).2.2.2.2.2.2.2.1
      _ (by decide) rfl
  · exact (c1_convert_file_no_escape envAllErr ("a.txt").toList
      ("o.pdf").toList).2.2.2.2.2.2.2.2.1 _ (by decide) rfl
  · exact (c1_convert_file_no_escape envAllErr ("a.docx").toList
      ("o.pdf").toList).2.2.2.2.2.2.2.2.2.1 _ (by decide) rfl
  · exact (c1_convert_file_no_escape envAllErr ("a.md").toList
      ("o.pdf").toList).2.2.2.2.2.2.2.2.2.2.1 _ (by decide) rfl
  · exact (c1_convert_file_no_escape envAllErr ("a.xlsx").toList
      ("o.pdf").toList).2.2.2.2.2.2.2.2.2.2.2.1 _ (by decide) rfl
  · exact (c1_convert_file_no_escape envAllErr ("a.pptx").toList
      ("o.pdf").toList).2.2.2.2.2.2.2.2.2.2.2.2.1 _ (by decide) rfl
  · exact (c1_convert_file_no_escape envAllErr ("a.pdf").toList
      ("o.pdf").toList).2.2.2.2.2.2.2.2.2.2.2.2.2 _ (by decide) rfl

theorem convertStep_counts (env : WalkEnv) (m : Bool) (st : FoldSt) (f : RelPath) :
    (convertStep env m st f).nS + (convertStep env m st f).nF = st.nS + st.nF + 1 := by
  unfold convertStep
  dsimp only
  split <;> split <;> simp <;> omega

theorem foldl_convertStep_counts (env : WalkEnv) (m : Bool) (files : List RelPath) :
    ∀ st : FoldSt,
      (files.foldl (convertStep env m) st).nS + (files.foldl (convertStep env m) st).nF
        = st.nS + st.nF + files.length := by
  induction files with
  | nil => intro st; simp
  | cons f rest ih =>
    intro st
    simp only [List.foldl_cons, List.length_cons]
    rw [ih]
    have := convertStep_counts env m st f
    omega

theorem mem_extensionsOf_of_get_file_type (p : PyStr) (c : Category)
    (h : get_file_type p = some c) : pyLower (pathSuffix p) ∈ extensionsOf c := by
  simp only [get_file_type] at h
  rcases hf : supported_formats.find?
      (fun q => q.2.contains (pyLower (pathSuffix p))) with _ | q
  · rw [hf] at h
    simp at h
  · rw [hf] at h
    simp only [Option.map_some'] at h
    have hq := List.mem_of_find?_eq_some hf
    have hpred := List.find?_some hf
    rw [List.elem_iff] at hpred
    simp only [supported_formats, List.mem_cons, List.not_mem_nil, or_false] at hq
    simp only [Option.some.injEq] at h
    subst h
    rcases hq with hq | hq | hq | hq | hq <;> (subst hq; simpa [extensionsOf] using hpred)

/-- C7: classification is a pure total function of the lowercased
extension — a path whose lowercase suffix sits in a category's extension
set classifies as that category, any other path classifies as the empty
result, and two paths with the same lowercase suffix classify alike; the
batch walker drops unsupported files from the enumeration, so the success
and failure counters range exactly over the supported files. -/
theorem c7_classifier_pure_and_walker_excludes
    (p : PyStr) (cat : Category) (env : WalkEnv) (m : Bool) (f : RelPath) :
    (pyLower (pathSuffix p) ∈ extensionsOf cat → get_file_type p = some cat)
    ∧ ((∀ c, pyLower (pathSuffix p) ∉ extensionsOf c) → get_file_type p = none)
    ∧ (∀ q, pyLower (pathSuffix p) = pyLower (pathSuffix q) →
        get_file_type p = get_file_type q)
    ∧ (f ∈ walkFiles env.tree → get_file_type (pathStr f) = none →
        f ∉ walkSupported env)
    ∧ (env.dirExists = true → env.isDir = true →
        (convert_directory env m false).nSuccess + (convert_directory env m false).nFail
          = (walkSupported env).length) := by
  refine ⟨?_, ?_, ?_, ?_, ?_⟩
  · intro h
    cases cat <;>
      simp only [extensionsOf, List.mem_cons, List.not_mem_nil, or_false] at h <;>
      first
      | (rcases h with h | h | h | h | h | h | h <;> (unfold get_file_type; rw [h]; rfl))
      | (rcases h with h | h | h <;> (unfold get_file_type; rw [h]; rfl))
      | (rcases h with h | h <;> (unfold get_file_type; rw [h]; rfl))
      | (rw [h]; unfold get_file_type; rfl)
      | (unfold get_file_type; rw [h]; rfl)
  · intro h
    rcases hgt : get_file_type p with _ | c
    · rfl
    · exact absurd (mem_extensionsOf_of_get_file_type p c hgt) (h c)
  · intro q h
    unfold get_file_type
    rw [h]
  · intro hmem hnone
    unfold walkSupported
    intro hcontra
    have := List.of_mem_filter hcontra
    rw [hnone] at this
    simp at this
  · intro hd hi
    unfold convert_directory
    rw [hd, hi]
    simp only [Bool.true_eq_false, if_false]
    by_cases hemp : (walkSupported env).isEmpty
    · simp only [hemp, if_true]
      rw [List.isEmpty_iff] at hemp
      rw [hemp]
      rfl
    · simp only [hemp, if_false, Bool.false_eq_true]
      have := foldl_convertStep_counts env m (walkSupported env)
        (FoldSt.mk env.initialFs 0 0 [] [])
      simpa using this

/-- A small concrete batch environment: a root with one supported and one
unsupported file, everything healthy. -/
def envWalkSmall : WalkEnv where
  dirExists := true
  isDir := true
  tree := FsTree.node [("a.txt").toList, ("bad.xyz").toList] []
  initialFs := []
  convertOk := fun _ _ => true
  combineOk := true

theorem c7_classifier_pure_and_walker_excludes_witness :
    get_file_type ("X/Report.PDF").toList = some Category.pdf
    ∧ get_file_type ("a.xyz").toList = none
    ∧ get_file_type ("A.TXT").toList = get_file_type ("b/c.txt").toList
    ∧ (("bad.xyz").toList :: []) ∉ walkSupported envWalkSmall
    ∧ (convert_directory envWalkSmall true false).nSuccess
        + (convert_directory envWalkSmall true false).nFail
        = (walkSupported envWalkSmall).length := by
  refine ⟨?_, ?_, ?_, ?_, ?_⟩
  · exact (c7_classifier_pure_and_walker_excludes ("X/Report.PDF").toList Category.pdf
      envWalkSmall true []).1 (by decide)
  · exact (c7_classifier_pure_and_walker_excludes ("a.xyz").toList Category.pdf
      envWalkSmall true []).2.1 (by intro c; cases c <;> decide)
  · exact (c7_classifier_pure_and_walker_excludes ("A.TXT").toList Category.pdf
      envWalkSmall true []).2.2.1 ("b/c.txt").toList (by decide)
  · exact (c7_classifier_pure_and_walker_excludes ("A.TXT").toList Category.pdf
      envWalkSmall true (("bad.xyz").toList :: [])).2.2.2.1
      (by simp [envWalkSmall, walkFiles, walkSubsFiles]) (by decide)
  · exact (c7_classifier_pure_and_walker_excludes ("A.TXT").toList Category.pdf
      envWalkSmall true []).2.2.2.2 rfl rfl

theorem candName_injective (base ext : PyStr) : Function.Injective (candName base ext) := by
  intro a b h
  unfold candName at h
  have h2 := List.append_cancel_right h
  have h3 := List.append_cancel_left h2
  have h4 : natToDecimal a = natToDecimal b := by
    injection h3
  exact natToDecimal_injective h4

theorem genUniqueAux_spec (fs : List PyStr) (base ext : PyStr) :
    ∀ (fuel c : Nat), (∃ i, i < fuel ∧ candName base ext (c + i) ∉ fs) →
      ∃ k, genUniqueAux fs base ext fuel c = candName base ext k
        ∧ c ≤ k ∧ candName base ext k ∉ fs
        ∧ ∀ j, c ≤ j → j < k → candName base ext j ∈ fs := by
  intro fuel
  induction fuel with
  | zero =>
    intro c h
    obtain ⟨i, hi, _⟩ := h
    omega
  | succ f ih =>
    intro c h
    by_cases hc : candName base ext c ∈ fs
    · have hrec : ∃ i, i < f ∧ candName base ext (c + 1 + i) ∉ fs := by
        obtain ⟨i, hi, hn⟩ := h
        rcases Nat.eq_zero_or_pos i with hz | hpos
        · subst hz
          simp at hn
          exact absurd hc hn
        · exact ⟨i - 1, by omega, by
            have : c + 1 + (i - 1) = c + i := by omega
            rw [this]
            exact hn⟩
      obtain ⟨k, hk, hck, hkn, hmin⟩ := ih (c + 1) hrec
      refine ⟨k, ?_, by omega, hkn, ?_⟩
      · show (if candName base ext c ∈ fs then genUniqueAux fs base ext f (c + 1)
            else candName base ext c) = candName base ext k
        rw [if_pos hc]
        exact hk
      · intro j hj1 hj2
        rcases Nat.eq_or_lt_of_le hj1 with hj | hj
        · rw [← hj]
          exact hc
        · exact hmin j (by omega) hj2
    · refine ⟨c, ?_, le_refl c, hc, by omega⟩
      show (if candName base ext c ∈ fs then genUniqueAux fs base ext f (c + 1)
          else candName base ext c) = candName base ext c
      rw [if_neg hc]

theorem exists_fresh_candidate (fs : List PyStr) (base ext : PyStr) :
    ∃ i, i < fs.length + 1 ∧ candName base ext (1 + i) ∉ fs := by
  by_contra hall
  push_neg at hall
  set S := (List.range (fs.length + 1)).map (fun i => candName base ext (1 + i)) with hS
  have hnodup : S.Nodup := by
    refine List.Nodup.map ?_ (List.nodup_range _)
    intro a b hab
    have := candName_injective base ext hab
    omega
  have hsub : ∀ x ∈ S, x ∈ fs := by
    intro x hx
    rw [hS, List.mem_map] at hx
    obtain ⟨i, hi, hxi⟩ := hx
    rw [List.mem_range] at hi
    rw [← hxi]
    exact hall i hi
  have hcard1 : S.toFinset.card = fs.length + 1 := by
    rw [List.toFinset_card_of_nodup hnodup, hS, List.length_map, List.length_range]
  have hcard2 : S.toFinset.card ≤ fs.toFinset.card := by
    apply Finset.card_le_card
    intro x hx
    rw [List.mem_toFinset] at hx ⊢
    exact hsub x hx
  have hcard3 := List.toFinset_card_le fs
  omega

theorem generate_unique_filename_not_mem (fs : List PyStr) (base ext : PyStr) :
    generate_unique_filename fs base ext ∉ fs := by
  unfold generate_unique_filename
  by_cases h : base ++ ext ∈ fs
  · rw [if_pos h]
    obtain ⟨k, hk, _, hkn, _⟩ :=
      genUniqueAux_spec fs base ext (fs.length + 1) 1 (exists_fresh_candidate fs base ext)
    rw [hk]
    exact hkn
  · rw [if_neg h]
    exact h

theorem foldl_flatten_invariant (env : WalkEnv)
    (hok : ∀ f out, env.convertOk f out = true) :
    ∀ (files : List RelPath) (st : FoldSt),
      st.assigned.Nodup → (∀ n ∈ st.assigned, n ∈ st.fs) →
      ((files.foldl (convertStep env false) st).assigned.Nodup
        ∧ (∀ n ∈ (files.foldl (convertStep env false) st).assigned,
            n ∈ (files.foldl (convertStep env false) st).fs)
        ∧ (∀ n ∈ (files.foldl (convertStep env false) st).assigned,
            n ∈ st.assigned ∨ n ∉ st.fs)) := by
  intro files
  induction files with
  | nil =>
    intro st h1 h2
    exact ⟨h1, h2, fun n hn => Or.inl hn⟩
  | cons f rest ih =>
    intro st h1 h2
    simp only [List.foldl_cons]
    have hstep : convertStep env false st f =
        FoldSt.mk (generate_unique_filename st.fs (flatBaseName f) (".pdf").toList :: st.fs)
          (st.nS + 1) st.nF
          (st.assigned ++ [generate_unique_filename st.fs (flatBaseName f) (".pdf").toList])
          (st.written ++ [generate_unique_filename st.fs (flatBaseName f) (".pdf").toList]) := by
      simp [convertStep, hok]
    rw [hstep]
    set out := generate_unique_filename st.fs (flatBaseName f) (".pdf").toList with hout
    have hfresh : out ∉ st.fs := generate_unique_filename_not_mem st.fs (flatBaseName f) _
    have h1' : (st.assigned ++ [out]).Nodup := by
      rw [List.nodup_append]
      refine ⟨h1, List.nodup_singleton out, ?_⟩
      intro n hn hnout
      rw [List.mem_singleton] at hnout
      exact hfresh (hnout ▸ h2 n hn)
    have h2' : ∀ n ∈ st.assigned ++ [out], n ∈ out :: st.fs := by
      intro n hn
      rw [List.mem_append, List.mem_singleton] at hn
      rcases hn with hn | hn
      · exact List.mem_cons_of_mem _ (h2 n hn)
      · rw [hn]
        exact List.mem_cons_self _ _
    obtain ⟨i1, i2, i3⟩ := ih (FoldSt.mk (out :: st.fs) (st.nS + 1) st.nF
      (st.assigned ++ [out]) (st.written ++ [out])) h1' h2'
    refine ⟨i1, i2, ?_⟩
    intro n hn
    rcases i3 n hn with hn2 | hn2
    · simp only [List.mem_append, List.mem_singleton] at hn2
      rcases hn2 with hn2 | hn2
      · exact Or.inl hn2
      · rw [hn2]
        exact Or.inr hfresh
    · simp only [List.mem_cons, not_or] at hn2
      exact Or.inr hn2.2

/-- C3: flat-mode destinations are resolved against the current filesystem
state — `generate_unique_filename` returns the plain `<base>.pdf` when it
is free, otherwise the first `<base>_k.pdf` (k = 1, 2, ...) not existing
on disk, and its result never collides with an existing name; a flatten
run whose conversions succeed therefore assigns pairwise-distinct names,
none of which overwrites a pre-existing file, and an output directory that
already holds `report.pdf` yields `report_1.pdf`. -/
theorem c3_flatten_unique_names (fs : List PyStr) (base ext : PyStr) (env : WalkEnv) :
    (generate_unique_filename fs base ext ∉ fs)
    ∧ (base ++ ext ∉ fs → generate_unique_filename fs base ext = base ++ ext)
    ∧ (base ++ ext ∈ fs →
        ∃ k, 1 ≤ k ∧ generate_unique_filename fs base ext = candName base ext k
          ∧ candName base ext k ∉ fs
          ∧ ∀ j, 1 ≤ j → j < k → candName base ext j ∈ fs)
    ∧ (generate_unique_filename [("report.pdf").toList] ("report").toList (".pdf").toList
        = ("report_1.pdf").toList)
    ∧ ((∀ f out, env.convertOk f out = true) →
        (convert_directory env false false).assigned.Nodup
        ∧ ∀ n ∈ (convert_directory env false false).assigned, n ∉ env.initialFs) := by
  refine ⟨generate_unique_filename_not_mem fs base ext, ?_, ?_, by decide, ?_⟩
  · intro h
    show (if base ++ ext ∈ fs then genUniqueAux fs base ext (fs.length + 1) 1
        else base ++ ext) = base ++ ext
    rw [if_neg h]
  · intro h
    have hgen : generate_unique_filename fs base ext
        = genUniqueAux fs base ext (fs.length + 1) 1 := by
      show (if base ++ ext ∈ fs then genUniqueAux fs base ext (fs.length + 1) 1
          else base ++ ext) = _
      rw [if_pos h]
    obtain ⟨k, hk, hck, hkn, hmin⟩ :=
      genUniqueAux_spec fs base ext (fs.length + 1) 1 (exists_fresh_candidate fs base ext)
    exact ⟨k, hck, hgen.trans hk, hkn, hmin⟩
  · intro hok
    unfold convert_directory
    by_cases hde : env.dirExists = false
    · rw [if_pos hde]
      exact ⟨List.nodup_nil, by intro n hn; simp at hn⟩
    · rw [if_neg hde]
      by_cases hdi : env.isDir = false
      · rw [if_pos hdi]
        exact ⟨List.nodup_nil, by intro n hn; simp at hn⟩
      · rw [if_neg hdi]
        dsimp only
        by_cases hemp : (walkSupported env).isEmpty
        · rw [if_pos hemp]
          exact ⟨List.nodup_nil, by intro n hn; simp at hn⟩
        · rw [if_neg hemp]
          rw [if_neg (by simp)]
          dsimp only
          obtain ⟨i1, i2, i3⟩ := foldl_flatten_invariant env hok (walkSupported env)
            (FoldSt.mk env.initialFs 0 0 [] []) List.nodup_nil (by intro n hn; simp at hn)
          refine ⟨i1, ?_⟩
          intro n hn
          rcases i3 n hn with hn2 | hn2
          · simp at hn2
          · exact hn2

/-- Two files named `report.txt` in different subdirectories, plus a
pre-existing `x_report.pdf` in the output directory, all conversions
succeeding. -/
def envFlatTwo : WalkEnv where
  dirExists := true
  isDir := true
  tree := FsTree.node []
    [(("x").toList, FsTree.node [("report.txt").toList] []),
     (("y").toList, FsTree.node [("report.txt").toList] [])]
  initialFs := [("x_report.pdf").toList]
  convertOk := fun _ _ => true
  combineOk := true

theorem c3_flatten_unique_names_witness :
    generate_unique_filename [] ("report").toList (".pdf").toList = ("report.pdf").toList
    ∧ (∃ k, 1 ≤ k
        ∧ generate_unique_filename [("report.pdf").toList] ("report").toList (".pdf").toList
            = candName ("report").toList (".pdf").toList k
        ∧ candName ("report").toList (".pdf").toList k ∉ [("report.pdf").toList]
        ∧ ∀ j, 1 ≤ j → j < k →
            candName ("report").toList (".pdf").toList j ∈ [("report.pdf").toList])
    ∧ ((convert_directory envFlatTwo false false).assigned.Nodup
        ∧ ∀ n ∈ (convert_directory envFlatTwo false false).assigned,
            n ∉ envFlatTwo.initialFs) := by
  refine ⟨?_, ?_, ?_⟩
  · exact (c3_flatten_unique_names [] ("report").toList (".pdf").toList envFlatTwo).2.1
      (by decide)
  · exact (c3_flatten_unique_names [("report.pdf").toList] ("report").toList
      (".pdf").toList envFlatTwo).2.2.1 (by decide)
  · exact (c3_flatten_unique_names [] ("report").toList (".pdf").toList
      envFlatTwo).2.2.2.2 (fun _ _ => rfl)

theorem pySplit_ne_nil (sep : Char) (s : PyStr) : pySplit sep s ≠ [] := by
  induction s with
  | nil => simp [pySplit]
  | cons c rest ih =>
    unfold pySplit
    by_cases h : c = sep
    · simp [h]
    · rw [if_neg h]
      rcases hsp : pySplit sep rest with _ | ⟨hd, tl⟩
      · exact absurd hsp ih
      · simp

/-- C4, counterexample: a `.txt` input whose two lines are pure whitespace
is NOT rendered through the fallback branch — every line appends a
`Spacer(1, 12)` to the story, the story is therefore non-empty, and the
converter builds a normal document of spacers. -/
theorem c4_counterexample :
    ((pySplit '\n' (" \n ").toList).all (fun l => (pyStrip l).isEmpty)) = true
    ∧ convert_txt_render ("f.txt").toList (" \n ").toList
        = RenderOut.built [StoryEl.spacer 1 12, StoryEl.spacer 1 12]
    ∧ (convert_txt_render ("f.txt").toList (" \n ").toList).isFallback = false := by
  refine ⟨by decide, by decide, by decide⟩

/-- C4, amended: the `.txt` renderer never emits the fallback PDF — every
input (the whitespace-only ones included) yields a normally built,
non-empty story, and an input none of whose lines contains non-whitespace
text yields exactly one `Spacer(1, 12)` per line.  (The fallback branch of
the `.txt` converter is unreachable; it would state only the source
filename, without a "no content found" line.) -/
theorem c4_txt_never_fallback (input content : PyStr) :
    (∃ story, convert_txt_render input content = RenderOut.built story ∧ story ≠ [])
    ∧ ((∀ l ∈ pySplit '\n' content, pyStrip l = []) →
        convert_txt_render input content
          = RenderOut.built ((pySplit '\n' content).map (fun _ => StoryEl.spacer 1 12))) := by
  have hpos : 0 < (pySplit '\n' content).length :=
    List.length_pos.mpr (pySplit_ne_nil '\n' content)
  have hne : txtStory content ≠ [] := by
    intro hcon
    have hlen : (txtStory content).length = (pySplit '\n' content).length := by
      unfold txtStory
      rw [List.length_map]
    rw [hcon] at hlen
    simp at hlen
    omega
  have hbuilt : convert_txt_render input content = RenderOut.built (txtStory content) := by
    show (if txtStory content ≠ [] then RenderOut.built (txtStory content)
        else RenderOut.fallback
          [DrawOp.text 100 750 (("Converted from: ").toList ++ pyBasename input)])
        = RenderOut.built (txtStory content)
    rw [if_pos hne]
  refine ⟨⟨txtStory content, hbuilt, hne⟩, ?_⟩
  intro hall
  rw [hbuilt]
  congr 1
  unfold txtStory
  apply List.map_congr_left
  intro l hl
  rw [if_neg (by simp [hall l hl])]

theorem c4_txt_never_fallback_witness :
    (∃ story, convert_txt_render ("f.txt").toList ("hello").toList
        = RenderOut.built story ∧ story ≠ [])
    ∧ convert_txt_render ("f.txt").toList (" \n ").toList
        = RenderOut.built
            ((pySplit '\n' (" \n ").toList).map (fun _ => StoryEl.spacer 1 12)) :=
  ⟨(c4_txt_never_fallback ("f.txt").toList ("hello").toList).1,
   (c4_txt_never_fallback ("f.txt").toList (" \n ").toList).2 (by decide)⟩

theorem combineFileMid_no_pageBreak (env : PyEnv) (f : PyStr) :
    StoryEl.pageBreak ∉ (combineFileMid env f).1 := by
  unfold combineFileMid
  rcases hc : combineDocContent env f with e | content <;> repeat' split
  all_goals intro hmem
  all_goals
    first
    | (simp at hmem
       done)
    | (dsimp only at hmem
       rw [List.mem_map] at hmem
       obtain ⟨l, _, hl⟩ := hmem
       split at hl <;> simp at hl)

theorem combineFileBody_ok_shape (env : PyEnv) (i n : Nat) (f : PyStr)
    (h : (combineFileBody env i n f).2 = none) :
    ∃ rel, env.relTo f = Except.ok rel
      ∧ combineFileBody env i n f =
        ([StoryEl.para Style.title (("📄 ").toList ++ rel), StoryEl.spacer 1 6]
            ++ (combineFileMid env f).1
            ++ [StoryEl.spacer 1 12, StoryEl.para Style.normal sepChars, StoryEl.spacer 1 12]
            ++ (if i % 5 = 0 ∧ i < n then [StoryEl.pageBreak] else []), none) := by
  unfold combineFileBody at h ⊢
  rcases hr : env.relTo f with e | rel
  · rw [hr] at h
    simp at h
  · rw [hr] at h
    rcases hm : combineFileMid env f with ⟨mids, me⟩
    rw [hm] at h
    cases me with
    | some e => simp at h
    | none => exact ⟨rel, rfl, by simp⟩

/-- C5: in the Combiner, an entry processed without an escaping exception
always ends with the visual separator block, and a hard page break follows
it exactly when its 1-based position is a multiple of 5 and it is not the
last entry. -/
theorem c5_combine_separator_pagebreak (env : PyEnv) (i n : Nat) (f : PyStr)
    (hok : (combineFileBody env i n f).2 = none) :
    (∃ pre, combineFileSection env i n f
        = pre ++ [StoryEl.spacer 1 12, StoryEl.para Style.normal sepChars, StoryEl.spacer 1 12]
          ++ (if i % 5 = 0 ∧ i < n then [StoryEl.pageBreak] else [])
      ∧ StoryEl.pageBreak ∉ pre)
    ∧ (StoryEl.pageBreak ∈ combineFileSection env i n f ↔ (i % 5 = 0 ∧ i < n)) := by
  obtain ⟨rel, hrel, hshape⟩ := combineFileBody_ok_shape env i n f hok
  have hsec : combineFileSection env i n f = (combineFileBody env i n f).1 := by
    unfold combineFileSection
    rcases hb : combineFileBody env i n f with ⟨ops, me⟩
    rw [hb] at hok
    simp only at hok
    subst hok
    rfl
  rw [hshape] at hsec
  dsimp only at hsec
  have hpre : StoryEl.pageBreak ∉
      [StoryEl.para Style.title (("📄 ").toList ++ rel), StoryEl.spacer 1 6]
        ++ (combineFileMid env f).1 := by
    intro hmem
    rw [List.mem_append] at hmem
    rcases hmem with hmem | hmem
    · simp at hmem
    · exact combineFileMid_no_pageBreak env f hmem
  constructor
  · refine ⟨[StoryEl.para Style.title (("📄 ").toList ++ rel), StoryEl.spacer 1 6]
      ++ (combineFileMid env f).1, ?_, hpre⟩
    rw [hsec]
    try simp [List.append_assoc]
  · rw [hsec]
    constructor
    · intro hmem
      simp only [List.append_assoc, List.mem_append] at hmem
      rcases hmem with hmem | hmem | hmem | hmem
      · exact absurd (List.mem_append_left _ hmem) hpre
      · exact absurd (List.mem_append_right _ hmem) hpre
      · simp at hmem
      · split at hmem
        · assumption
        · simp at hmem
    · intro hcond
      rw [if_pos hcond]
      simp

/-- An environment in which every library call succeeds. -/
def envAllOk : PyEnv where
  imageOpen := fun _ => Except.ok (ImgFile.mk ("RGB").toList)
  imageSave := fun _ _ => Except.ok ()
  docxOpen := fun _ => Except.ok [("para").toList]
  readFile := fun _ => Except.ok ("hello").toList
  markdownToHtml := fun s => s
  loadWorkbook := fun _ => Except.ok (Workbook.mk [])
  pptxOpen := fun _ => Except.ok []
  buildDoc := fun _ _ => Except.ok ()
  canvasSave := fun _ _ => Except.ok ()
  copy2 := fun _ _ => Except.ok ()
  relTo := fun f => Except.ok f
  statSize := fun _ => Except.ok 42
  imageThumb := fun _ => Except.ok (100, 80)

theorem c5_combine_separator_pagebreak_witness :
    StoryEl.pageBreak ∈ combineFileSection envAllOk 5 6 ("a.txt").toList
    ∧ StoryEl.pageBreak ∉ combineFileSection envAllOk 6 6 ("a.txt").toList
    ∧ StoryEl.pageBreak ∉ combineFileSection envAllOk 7 9 ("a.txt").toList := by
  refine ⟨?_, ?_, ?_⟩
  · exact (c5_combine_separator_pagebreak envAllOk 5 6 ("a.txt").toList
      (by decide)).2.mpr (by decide)
  · intro hmem
    exact absurd ((c5_combine_separator_pagebreak envAllOk 6 6 ("a.txt").toList
      (by decide)).2.mp hmem) (by decide)
  · intro hmem
    exact absurd ((c5_combine_separator_pagebreak envAllOk 7 9 ("a.txt").toList
      (by decide)).2.mp hmem) (by decide)

/-- C6: an exception while processing one combine entry is confined to
that entry — its inline error note lands in the story, every entry (failed
or not) still contributes a non-empty section to the story — and the
Combiner's boolean is decided solely by the final document build. -/
theorem c6_combine_error_isolation (env : PyEnv) (files : List PyStr) (output : PyStr)
    (i : Nat) (f : PyStr) :
    (combine_files_to_single_pdf env files output = true
      ↔ env.buildDoc output (combineStory env files) = Except.ok ())
    ∧ combineFileSection env i files.length f ≠ []
    ∧ ((i, f) ∈ List.enumFrom 1 files →
        ∀ op ∈ combineFileSection env i files.length f, op ∈ combineStory env files)
    ∧ ((i, f) ∈ List.enumFrom 1 files →
        ∀ e, (combineFileBody env i files.length f).2 = some e →
          StoryEl.para Style.normal (errProcText f e) ∈ combineStory env files) := by
  refine ⟨?_, ?_, ?_, ?_⟩
  · unfold combine_files_to_single_pdf
    rcases hb : env.buildDoc output (combineStory env files) with e | u
    · simp
    · simp
  · unfold combineFileSection
    rcases hb : combineFileBody env i files.length f with ⟨ops, me⟩
    cases me with
    | some e => simp
    | none =>
      obtain ⟨rel, _, hshape⟩ := combineFileBody_ok_shape env i files.length f (by rw [hb])
      rw [hb] at hshape
      have hops : ops
          = [StoryEl.para Style.title (("📄 ").toList ++ rel), StoryEl.spacer 1 6]
            ++ (combineFileMid env f).1
            ++ [StoryEl.spacer 1 12, StoryEl.para Style.normal sepChars, StoryEl.spacer 1 12]
            ++ (if i % 5 = 0 ∧ i < files.length then [StoryEl.pageBreak] else []) :=
        congrArg Prod.fst hshape
      rw [hops]
      simp
  · intro hmem op hop
    unfold combineStory
    exact List.mem_flatMap.mpr ⟨(i, f), hmem, hop⟩
  · intro hmem e he
    have hsec : StoryEl.para Style.normal (errProcText f e)
        ∈ combineFileSection env i files.length f := by
      unfold combineFileSection
      rcases hb : combineFileBody env i files.length f with ⟨ops, me⟩
      rw [hb] at he
      simp only at he
      subst he
      simp
    unfold combineStory
    exact List.mem_flatMap.mpr ⟨(i, f), hmem, hsec⟩

theorem c6_combine_error_isolation_witness :
    (combine_files_to_single_pdf envAllOk [("a.txt").toList, ("b.xlsx").toList]
      ("out.pdf").toList = true
      ↔ envAllOk.buildDoc ("out.pdf").toList
          (combineStory envAllOk [("a.txt").toList, ("b.xlsx").toList]) = Except.ok ())
    ∧ combineFileSection envAllErr 1 2 ("a.txt").toList ≠ []
    ∧ (∀ op ∈ combineFileSection envAllErr 1 2 ("a.txt").toList,
        op ∈ combineStory envAllErr [("a.txt").toList, ("b.xlsx").toList])
    ∧ StoryEl.para Style.normal (errProcText ("a.txt").toList ("boom").toList)
        ∈ combineStory envAllErr [("a.txt").toList, ("b.xlsx").toList] := by
  refine ⟨?_, ?_, ?_, ?_⟩
  · exact (c6_combine_error_isolation envAllOk [("a.txt").toList, ("b.xlsx").toList]
      ("out.pdf").toList 1 ("a.txt").toList).1
  · exact (c6_combine_error_isolation envAllErr [("a.txt").toList, ("b.xlsx").toList]
      ("out.pdf").toList 1 ("a.txt").toList).2.1
  · exact (c6_combine_error_isolation envAllErr [("a.txt").toList, ("b.xlsx").toList]
      ("out.pdf").toList 1 ("a.txt").toList).2.2.1 (by decide)
  · exact (c6_combine_error_isolation envAllErr [("a.txt").toList, ("b.xlsx").toList]
      ("out.pdf").toList 1 ("a.txt").toList).2.2.2 (by decide) ("boom").toList rfl

/-- The text drawn by a `drawString` op, `none` for a `showPage`. -/
def DrawOp.textOf : DrawOp → Option PyStr
  | DrawOp.text _ _ s => some s
  | DrawOp.newPage => none

/-- Whether a canvas op is a `showPage`. -/
def DrawOp.isNewPage : DrawOp → Bool
  | DrawOp.newPage => true
  | DrawOp.text _ _ _ => false

/-- The cursor position after one row iteration of the xlsx loop, given
the position at its start. -/
def rowNextY (y : ℚ) (row : List (Option PyStr)) : ℚ :=
  if pyStrip (rowText row) ≠ []
  then (if y < 50 then A4height - 50 else y) - 15
  else (if y < 50 then A4height - 50 else y)

/-- The cursor position at the start of each row iteration (the value the
`y_position < 50` page-break test reads). -/
def rowYs : ℚ → List (List (Option PyStr)) → List ℚ
  | _, [] => []
  | y, row :: rest => y :: rowYs (rowNextY y row) rest

/-- The row texts the xlsx loop draws: pipe-joined rows whose stripped
text is non-empty, truncated to 80 characters, in order. -/
def drawnRowTexts (rows : List (List (Option PyStr))) : List PyStr :=
  ((rows.map rowText).filter (fun t => decide (pyStrip t ≠ []))).map (fun t => t.take 80)

theorem drawnRowTexts_cons (row : List (Option PyStr)) (rows : List (List (Option PyStr))) :
    drawnRowTexts (row :: rows)
      = (if pyStrip (rowText row) ≠ [] then [(rowText row).take 80] else [])
        ++ drawnRowTexts rows := by
  unfold drawnRowTexts
  simp only [List.map_cons, List.filter_cons]
  by_cases h : pyStrip (rowText row) ≠ [] <;> simp [h]

theorem xlsxRowOps_texts (y : ℚ) (rows : List (List (Option PyStr))) :
    (xlsxRowOps y rows).2.filterMap DrawOp.textOf = drawnRowTexts rows := by
  induction rows generalizing y with
  | nil => simp [xlsxRowOps, drawnRowTexts]
  | cons row rest ih =>
    rw [drawnRowTexts_cons]
    by_cases hbrk : y < 50 <;> by_cases hst : pyStrip (rowText row) ≠ [] <;>
      simp [xlsxRowOps, hbrk, hst, List.filterMap_append, DrawOp.textOf, ih]

theorem xlsxRowOps_newPage_count (y : ℚ) (rows : List (List (Option PyStr))) :
    (xlsxRowOps y rows).2.countP DrawOp.isNewPage
      = (rowYs y rows).countP (fun v => decide (v < 50)) := by
  induction rows generalizing y with
  | nil => simp [xlsxRowOps, rowYs]
  | cons row rest ih =>
    by_cases hbrk : y < 50 <;> by_cases hst : pyStrip (rowText row) ≠ [] <;>
      simp [xlsxRowOps, rowYs, rowNextY, hbrk, hst, List.countP_append,
        DrawOp.isNewPage, ih]

theorem drawnRowTexts_length_le (rows : List (List (Option PyStr))) :
    (drawnRowTexts rows).length ≤ rows.length := by
  unfold drawnRowTexts
  rw [List.length_map]
  calc ((rows.map rowText).filter (fun t => decide (pyStrip t ≠ []))).length
      ≤ (rows.map rowText).length := List.length_filter_le _ _
    _ = rows.length := List.length_map _ _

theorem iterRows50x10_length (s : Sheet) : (iterRows50x10 s).length = 50 := by
  unfold iterRows50x10
  rw [List.length_map, List.length_range]

theorem iterRows50x10_row_length (s : Sheet) :
    ∀ row ∈ iterRows50x10 s, row.length = 10 := by
  intro row hrow
  unfold iterRows50x10 at hrow
  rw [List.mem_map] at hrow
  obtain ⟨r, _, hr⟩ := hrow
  rw [← hr, List.length_map, List.length_range]

theorem xlsxSheetsFold_header_mem (nm : PyStr) :
    ∀ (sheets : List Sheet) (y : ℚ) (s : Sheet), s ∈ sheets →
      ∃ y2, DrawOp.text 50 y2 (("Sheet: ").toList ++ s.name) ∈ (xlsxSheetsFold y sheets).2 := by
  intro sheets
  induction sheets with
  | nil => intro y s hs; simp at hs
  | cons hd rest ih =>
    intro y s hs
    rw [List.mem_cons] at hs
    rcases hs with hs | hs
    · subst hs
      refine ⟨y, ?_⟩
      simp [xlsxSheetsFold, xlsxSheetOps]
    · obtain ⟨y2, hy2⟩ := ih (xlsxSheetOps y hd).1 s hs
      refine ⟨y2, ?_⟩
      simp only [xlsxSheetsFold, List.mem_append]
      exact Or.inr hy2

/-- C2: the spreadsheet renderer draws, per sheet, a `Sheet: <name>`
header first, then at most 50 row lines (openpyxl's `iter_rows` rectangle
is capped at 50 rows of 10 columns), each drawn line being the pipe-joined
stringified 10-cell row truncated to 80 characters; a new page is started
exactly at the row iterations whose incoming cursor is below the bottom
margin of 50; in particular a sheet with a 60-row grid renders at most 50
row lines. -/
theorem c2_xlsx_renderer (wb : Workbook) (nm : PyStr) (y : ℚ) (s : Sheet) :
    ((xlsxRowOps y (iterRows50x10 s)).2.filterMap DrawOp.textOf
        = drawnRowTexts (iterRows50x10 s))
    ∧ (drawnRowTexts (iterRows50x10 s)).length ≤ 50
    ∧ (∀ t ∈ drawnRowTexts (iterRows50x10 s), t.length ≤ 80
        ∧ ∃ row, row ∈ iterRows50x10 s ∧ row.length = 10 ∧ t = (rowText row).take 80)
    ∧ ((xlsxRowOps y (iterRows50x10 s)).2.countP DrawOp.isNewPage
        = (rowYs y (iterRows50x10 s)).countP (fun v => decide (v < 50)))
    ∧ ((xlsxSheetOps y s).2.head?
        = some (DrawOp.text 50 y (("Sheet: ").toList ++ s.name)))
    ∧ (∀ s2 ∈ wb.sheets, ∃ y2,
        DrawOp.text 50 y2 (("Sheet: ").toList ++ s2.name) ∈ xlsxDrawOps wb nm)
    ∧ (s.grid.length = 60 → (drawnRowTexts (iterRows50x10 s)).length ≤ 50) := by
  have hle : (drawnRowTexts (iterRows50x10 s)).length ≤ 50 := by
    have := drawnRowTexts_length_le (iterRows50x10 s)
    rw [iterRows50x10_length] at this
    exact this
  refine ⟨xlsxRowOps_texts y (iterRows50x10 s), hle, ?_,
    xlsxRowOps_newPage_count y (iterRows50x10 s), by simp [xlsxSheetOps], ?_, fun _ => hle⟩
  · intro t ht
    unfold drawnRowTexts at ht
    rw [List.mem_map] at ht
    obtain ⟨t0, ht0, htake⟩ := ht
    have ht0m := List.of_mem_filter ht0
    have ht0mem := List.mem_of_mem_filter ht0
    rw [List.mem_map] at ht0mem
    obtain ⟨row, hrow, hrt⟩ := ht0mem
    constructor
    · rw [← htake, List.length_take]
      omega
    · exact ⟨row, hrow, iterRows50x10_row_length s row hrow, by rw [hrt, htake]⟩
  · intro s2 hs2
    obtain ⟨y2, hy2⟩ := xlsxSheetsFold_header_mem nm wb.sheets (A4height - 50 - 30) s2 hs2
    refine ⟨y2, ?_⟩
    unfold xlsxDrawOps
    exact List.mem_cons_of_mem _ hy2

/-- A sheet whose grid stores 60 rows of one cell each. -/
def sheet60 : Sheet := Sheet.mk ("Data").toList (List.replicate 60 [some ("x").toList])

theorem c2_xlsx_renderer_witness :
    ((drawnRowTexts (iterRows50x10 sheet60)).getD 0 []).length ≤ 80
    ∧ (∃ row, row ∈ iterRows50x10 sheet60 ∧ row.length = 10
        ∧ (drawnRowTexts (iterRows50x10 sheet60)).getD 0 [] = (rowText row).take 80)
    ∧ (∃ y2, DrawOp.text 50 y2 (("Sheet: ").toList ++ sheet60.name)
        ∈ xlsxDrawOps (Workbook.mk [sheet60]) ("book.xlsx").toList)
    ∧ (drawnRowTexts (iterRows50x10 sheet60)).length ≤ 50 := by
  have h := c2_xlsx_renderer (Workbook.mk [sheet60]) ("book.xlsx").toList
    (A4height - 50 - 30) sheet60
  have hmem : (drawnRowTexts (iterRows50x10 sheet60)).getD 0 []
      ∈ drawnRowTexts (iterRows50x10 sheet60) := by
    decide
  refine ⟨(h.2.2.1 _ hmem).1, (h.2.2.1 _ hmem).2, h.2.2.2.2.2.1 sheet60 (by decide),
    h.2.2.2.2.2.2 (by decide)⟩

/-- C8: the process exits 0 exactly when the run completed with a
successful combine (which requires a valid source directory and a
non-empty supported file set) or with at least one successful per-file
conversion; it exits 1 on zero successes, on a missing or non-directory
source path, and on user interrupt. -/
theorem c8_exit_codes (env : WalkEnv) (m c : Bool) :
    (mainExitCode (MainOutcome.completed (convert_directory env m c).success) = 0
      ↔ ((c = true ∧ env.dirExists = true ∧ env.isDir = true
            ∧ (walkSupported env).isEmpty = false ∧ env.combineOk = true)
          ∨ (c = false ∧ 0 < (convert_directory env m c).nSuccess)))
    ∧ mainExitCode MainOutcome.interrupted = 1
    ∧ mainExitCode MainOutcome.crashed = 1
    ∧ (env.dirExists = false →
        mainExitCode (MainOutcome.completed (convert_directory env m c).success) = 1)
    ∧ (env.isDir = false →
        mainExitCode (MainOutcome.completed (convert_directory env m c).success) = 1)
    ∧ (c = false → (convert_directory env m c).nSuccess = 0 →
        mainExitCode (MainOutcome.completed (convert_directory env m c).success) = 1) := by
  refine ⟨?_, rfl, rfl, ?_, ?_, ?_⟩
  · unfold convert_directory mainExitCode
    split_ifs with h1 h2 h3 h4 <;> cases c <;> simp_all <;>
      by_cases hemp : walkSupported env = [] <;> simp_all
  · intro h
    unfold convert_directory mainExitCode
    rw [if_pos h]
    rfl
  · intro h
    unfold convert_directory mainExitCode
    split_ifs <;> simp_all
  · intro hc h
    subst hc
    revert h
    unfold convert_directory mainExitCode
    split_ifs <;> intro h <;> by_cases hemp : walkSupported env = [] <;> simp_all

/-- A run whose source path does not exist. -/
def envBadDir : WalkEnv where
  dirExists := false
  isDir := true
  tree := FsTree.node [] []
  initialFs := []
  convertOk := fun _ _ => false
  combineOk := false

/-- A run in which every conversion fails. -/
def envNoSucc : WalkEnv where
  dirExists := true
  isDir := true
  tree := FsTree.node [("a.txt").toList] []
  initialFs := []
  convertOk := fun _ _ => false
  combineOk := false

theorem c8_exit_codes_witness :
    mainExitCode (MainOutcome.completed (convert_directory envWalkSmall true false).success) = 0
    ∧ mainExitCode (MainOutcome.completed (convert_directory envBadDir true false).success) = 1
    ∧ mainExitCode (MainOutcome.completed (convert_directory envNoSucc true false).success) = 1
    ∧ mainExitCode MainOutcome.interrupted = 1 := by
  refine ⟨?_, ?_, ?_, (c8_exit_codes envWalkSmall true false).2.1⟩
  · exact (c8_exit_codes envWalkSmall true false).1.mpr (Or.inr ⟨rfl, by decide⟩)
  · exact (c8_exit_codes envBadDir true false).2.2.2.1 rfl
  · exact (c8_exit_codes envNoSucc true false).2.2.2.2.2 rfl (by decide)

theorem pySplit_sep_append (sep : Char) (xs ys : PyStr) :
    pySplit sep (xs ++ sep :: ys) = pySplit sep xs ++ pySplit sep ys := by
  induction xs with
  | nil => simp [pySplit]
  | cons c rest ih =>
    by_cases h : c = sep
    · simp [pySplit, h, ih]
    · rcases hsp : pySplit sep rest with _ | ⟨hd, tl⟩
      · exact absurd hsp (pySplit_ne_nil sep rest)
      · simp [pySplit, h, ih, hsp]

theorem getLastD_append_right (l1 l2 : List PyStr) (h : l2 ≠ []) :
    (l1 ++ l2).getLastD [] = l2.getLastD [] := by
  rw [List.getLastD_eq_getLast?, List.getLastD_eq_getLast?,
    List.getLast?_append_of_ne_nil l1 h]

theorem pyBasename_dir_cons (d f : PyStr) :
    pyBasename (d ++ '/' :: f) = pyBasename f := by
  unfold pyBasename
  rw [pySplit_sep_append]
  exact getLastD_append_right _ _ (pySplit_ne_nil '/' f)

theorem pathStr_pair (d f : PyStr) : pathStr [d, f] = d ++ '/' :: f := by
  simp [pathStr, pyJoinSep, List.intercalate]

theorem pathSuffix_pair (d f : PyStr) : pathSuffix (pathStr [d, f]) = pathSuffix f := by
  unfold pathSuffix
  rw [pathStr_pair, pyBasename_dir_cons]

theorem walkSubsFiles_mem (subs : List (PyStr × FsTree)) (d : PyStr) (t : FsTree)
    (p : RelPath) (hd : (d, t) ∈ subs) (hp : p ∈ walkFiles t) :
    (d :: p) ∈ walkSubsFiles subs := by
  induction subs with
  | nil => simp at hd
  | cons hdp rest ih =>
    obtain ⟨d2, t2⟩ := hdp
    rw [List.mem_cons] at hd
    rcases hd with hd | hd
    · rw [show walkSubsFiles ((d2, t2) :: rest)
          = (walkFiles t2).map (fun q => d2 :: q) ++ walkSubsFiles rest from rfl]
      apply List.mem_append_left
      rw [List.mem_map]
      obtain ⟨hd1, hd2⟩ := Prod.mk.injEq .. ▸ hd
      exact ⟨p, hd2 ▸ hp, by rw [hd1]⟩
    · rw [show walkSubsFiles ((d2, t2) :: rest)
          = (walkFiles t2).map (fun q => d2 :: q) ++ walkSubsFiles rest from rfl]
      exact List.mem_append_right _ (ih hd)

/-- C9: the walker does not exclude the output directory — a file with a
`.pdf` suffix sitting in a `pdf` subdirectory of the source root (the
default output directory of a prior run) is enumerated, classified in the
`pdf` category, kept by the supported-files filter, and dispatched to the
byte-copy branch of `convert_file`. -/
theorem c9_output_dir_reenumerated (rfiles : List PyStr) (subs : List (PyStr × FsTree))
    (sfiles : List PyStr) (ssubs : List (PyStr × FsTree)) (f : PyStr) (env : WalkEnv)
    (henv : env.tree = FsTree.node rfiles subs)
    (hsub : ((("pdf").toList, FsTree.node sfiles ssubs)) ∈ subs)
    (hf : f ∈ sfiles)
    (hext : pyLower (pathSuffix f) = (".pdf").toList) :
    [("pdf").toList, f] ∈ walkFiles env.tree
    ∧ get_file_type (pathStr [("pdf").toList, f]) = some Category.pdf
    ∧ [("pdf").toList, f] ∈ walkSupported env
    ∧ (∀ (penv : PyEnv) (out : PyStr),
        (penv.copy2 (pathStr [("pdf").toList, f]) out = Except.ok () →
          convert_file penv (pathStr [("pdf").toList, f]) out = Except.ok true)
        ∧ (∀ e, penv.copy2 (pathStr [("pdf").toList, f]) out = Except.error e →
            convert_file penv (pathStr [("pdf").toList, f]) out = Except.ok false)) := by
  have hsuffix : pyLower (pathSuffix (pathStr [("pdf").toList, f])) = (".pdf").toList := by
    rw [pathSuffix_pair]
    exact hext
  have hgt : get_file_type (pathStr [("pdf").toList, f]) = some Category.pdf := by
    unfold get_file_type
    rw [hsuffix]
    rfl
  have hmem : [("pdf").toList, f] ∈ walkFiles env.tree := by
    rw [henv]
    rw [show walkFiles (FsTree.node rfiles subs)
        = rfiles.map (fun q => [q]) ++ walkSubsFiles subs from rfl]
    apply List.mem_append_right
    apply walkSubsFiles_mem subs ("pdf").toList (FsTree.node sfiles ssubs) [f] hsub
    rw [show walkFiles (FsTree.node sfiles ssubs)
        = sfiles.map (fun q => [q]) ++ walkSubsFiles ssubs from rfl]
    exact List.mem_append_left _ (List.mem_map.mpr ⟨f, hf, rfl⟩)
  refine ⟨hmem, hgt, ?_, ?_⟩
  · unfold walkSupported
    exact List.mem_filter.mpr ⟨hmem, by rw [hgt]; rfl⟩
  · intro penv out
    constructor
    · intro h
      unfold convert_file convert_file_body
      rw [hgt, h]
      rfl
    · intro e h
      unfold convert_file convert_file_body
      rw [hgt, h]
      rfl

/-- A source tree whose `pdf` subdirectory holds an output of a prior
run. -/
def envWithPdfDir : WalkEnv where
  dirExists := true
  isDir := true
  tree := FsTree.node [("a.txt").toList]
    [(("pdf").toList, FsTree.node [("old.pdf").toList] [])]
  initialFs := []
  convertOk := fun _ _ => true
  combineOk := true

theorem c9_output_dir_reenumerated_witness :
    [("pdf").toList, ("old.pdf").toList] ∈ walkFiles envWithPdfDir.tree
    ∧ get_file_type (pathStr [("pdf").toList, ("old.pdf").toList]) = some Category.pdf
    ∧ [("pdf").toList, ("old.pdf").toList] ∈ walkSupported envWithPdfDir
    ∧ convert_file envAllOk (pathStr [("pdf").toList, ("old.pdf").toList])
        ("out.pdf").toList = Except.ok true := by
  have h := c9_output_dir_reenumerated [("a.txt").toList]
    [(("pdf").toList, FsTree.node [("old.pdf").toList] [])]
    [("old.pdf").toList] [] ("old.pdf").toList envWithPdfDir rfl
    (List.mem_singleton.mpr rfl) (List.mem_singleton.mpr rfl) (by decide)
  exact ⟨h.1, h.2.1, h.2.2.1, (h.2.2.2 envAllOk ("out.pdf").toList).1 rfl⟩

/-- Two root-level files whose stems coincide (`report.txt`,
`report.md`), all conversions succeeding, empty output directory. -/
def envFlatSameStem : WalkEnv where
  dirExists := true
  isDir := true
  tree := FsTree.node [("report.txt").toList, ("report.md").toList] []
  initialFs := []
  convertOk := fun _ _ => true
  combineOk := true

/-- C10: the GUI's flat mode and the CLI's flatten mode name destinations
differently — the GUI writes `<base>.pdf` as a pure function of the input
path with no filesystem check, so two inputs with the same base name get
the same destination (the second overwrites the first), while the CLI run
on the same inputs resolves the collision against the filesystem and
assigns `report.pdf` and `report_1.pdf`. -/
theorem c10_gui_vs_cli_flat_naming (files : List RelPath) (f g : RelPath) :
    (gui_flat_names files = files.map (fun p => flatBaseName p ++ (".pdf").toList))
    ∧ (flatBaseName f = flatBaseName g →
        gui_flat_output_name f = gui_flat_output_name g)
    ∧ (gui_flat_names [[("report.txt").toList], [("report.md").toList]]
        = [("report.pdf").toList, ("report.pdf").toList])
    ∧ ((convert_directory envFlatSameStem false false).assigned
        = [("report.pdf").toList, ("report_1.pdf").toList])
    ∧ (convert_directory envFlatSameStem false false).assigned.Nodup := by
  refine ⟨rfl, ?_, by decide, by decide, by decide⟩
  intro h
  unfold gui_flat_output_name
  rw [h]

theorem c10_gui_vs_cli_flat_naming_witness :
    gui_flat_output_name [("report.txt").toList] = gui_flat_output_name [("report.md").toList] :=
  (c10_gui_vs_cli_flat_naming [] [("report.txt").toList] [("report.md").toList]).2.1
    (by decide)
